import Mathlib

/-!
Verification of the SignalWatch backend against its specification.

This file contains a shallow embedding, in Lean 4, of the parts of the
repository that the verified properties talk about:

* the importance scoring engine of `src/backend/main.py`
  (`topic_key_from_title`, `unique_news_by_topic`,
  `calculate_importance_score`, `delivery_level`, `priority_from_level`,
  and the per-asset rolling history `NEWS_COUNT_HISTORY`);
* the adaptive threshold controller of `src/backend/main.py`
  (`apply_adaptive_min_score`);
* the trust-weighted feedback store of `src/backend/feedback_store.py`
  (`extract_keywords`, `FeedbackStore.submit_feedback`,
  `FeedbackStore.get_article_summary`, `FeedbackStore._resolve_effective_trust`,
  `FeedbackStore._reweight_user_feedback`,
  `FeedbackStore.clear_user_trust_profile`,
  `FeedbackStore._upsert_user_tier_by_hash`).

Modelling conventions: Python ints become `Int` or `Nat`; Python floats
become `Rat` (exact rational arithmetic standing in for IEEE doubles;
`round(x, 4)` becomes decimal rounding half-to-even on rationals); the
SQLite tables of the feedback store become lists of rows inside an explicit
`Store` state, and each store method becomes a state-passing function;
reason strings built with f-string interpolation are represented by an
inductive `Reason` carrying the interpolated values.  The SHA-256 hashing
of raw user ids is outside the embedding: store operations are modelled at
the level of the already-hashed user id, which is the key the database
actually uses.
-/

namespace SignalWatch

/-! ## Articles and scoring support (src/backend/main.py) -/

/-- One fetched article, as consumed by `calculate_importance_score`
(`title`, `source`, `sentiment_label` entries of the news dicts). -/
structure Article where
  title : String
  source : String
  sentiment_label : String
deriving DecidableEq, Repr

/-- Python `\s` whitespace (ASCII range, which is what the titles use). -/
def isWs (c : Char) : Bool :=
  c = ' ' ∨ c = '\t' ∨ c = '\n' ∨ c = '\r' ∨ c = Char.ofNat 11 ∨ c = Char.ofNat 12

/-- The punctuation class stripped by `topic_key_from_title`
(the characters of the regex `["'“”‘’`·…,:;!?/\\|]`). -/
def isPunct (c : Char) : Bool :=
  c = '"' ∨ c = Char.ofNat 39 ∨ c = '“' ∨ c = '”' ∨ c = '‘' ∨ c = '’' ∨
  c = Char.ofNat 96 ∨ c = '·' ∨ c = '…' ∨ c = ',' ∨ c = ':' ∨ c = ';' ∨
  c = '!' ∨ c = '?' ∨ c = '/' ∨ c = '\\' ∨ c = '|'

/-- Drop characters up to and including the first occurrence of `cl`;
`none` when `cl` does not occur. -/
def dropThroughClose (cl : Char) (l : List Char) : Option (List Char) :=
  match l.dropWhile (fun c => !(c = cl)) with
  | [] => none
  | _ :: rest => some rest

/-- `re.sub` of `\[[^\]]*\]` (resp. `\([^)]*\)`) by a single space:
each opener is replaced, together with everything up to the first
following closer, by one space; an opener with no later closer is kept. -/
def stripDelim (op cl : Char) : List Char → List Char
  | [] => []
  | c :: rest =>
    if c = op then
      match hfind : dropThroughClose cl rest with
      | some rest2 => ' ' :: stripDelim op cl rest2
      | none => c :: stripDelim op cl rest
    else
      c :: stripDelim op cl rest
termination_by l => l.length
decreasing_by
  · refine Nat.lt_succ_of_lt ?_
    unfold dropThroughClose at hfind
    cases hd : rest.dropWhile (fun c => !(c = cl)) with
    | nil => rw [hd] at hfind; simp at hfind
    | cons x tl =>
        rw [hd] at hfind
        simp only [Option.some.injEq] at hfind
        subst hfind
        have hle : (rest.dropWhile (fun c => !(c = cl))).length ≤ rest.length := by
          clear hd
          induction rest with
          | nil => simp [List.dropWhile]
          | cons a l ih =>
              rw [List.dropWhile_cons]
              split
              · exact Nat.le_succ_of_le ih
              · simp
        rw [hd] at hle
        simp only [List.length_cons] at hle
        omega
  · exact Nat.lt_succ_self _
  · exact Nat.lt_succ_self _

/-- Split into maximal runs of non-whitespace characters. -/
def wordsAux : List Char → List Char → List (List Char)
  | [], acc => if acc.isEmpty then [] else [acc.reverse]
  | c :: rest, acc =>
    if isWs c then
      if acc.isEmpty then wordsAux rest [] else acc.reverse :: wordsAux rest []
    else
      wordsAux rest (c :: acc)

/-- `re.sub(r"\s+", " ", text).strip()`: collapse whitespace runs to a
single space and strip the ends. -/
def collapseWs (l : List Char) : List Char :=
  List.intercalate [' '] (wordsAux l [])

/-- Python `str.strip()` (ASCII whitespace). -/
def pyStrip (s : String) : String :=
  String.mk (((s.data.dropWhile isWs).reverse.dropWhile isWs).reverse)

/-- `topic_key_from_title` of src/backend/main.py: lowercase, strip
bracketed tags and parenthetical asides, strip punctuation, collapse
whitespace. -/
def topicKeyFromTitle (title : String) : String :=
  let t := title.data.map Char.toLower
  let t := stripDelim '[' ']' t
  let t := stripDelim '(' ')' t
  let t := t.map (fun c => if isPunct c then ' ' else c)
  String.mk (collapseWs t)

/-- `unique_news_by_topic`: keep the first article for each topic key
(falling back to the stripped title when the key is empty; articles whose
key is still empty are dropped). -/
def uniqueAux : List Article → List String → List Article
  | [], _ => []
  | a :: rest, seen =>
    let k0 := topicKeyFromTitle a.title
    let k := if k0 = "" then pyStrip a.title else k0
    if k = "" ∨ seen.contains k then uniqueAux rest seen
    else a :: uniqueAux rest (k :: seen)

def uniqueNewsByTopic (l : List Article) : List Article :=
  uniqueAux l []

/-- `delivery_level` of src/backend/main.py. -/
def deliveryLevel (score : Int) : String :=
  if 70 ≤ score then "push_immediate"
  else if 40 ≤ score then "in_app"
  else "daily_digest"

/-- `priority_from_level` of src/backend/main.py (dict lookup with
default "low"). -/
def priorityFromLevel (level : String) : String :=
  if level = "push_immediate" then "high"
  else if level = "in_app" then "medium"
  else if level = "daily_digest" then "low"
  else "low"

/-! ## Importance scoring (calculate_importance_score) -/

/-- Substring containment, Python's `pat in hay`. -/
def listHasSub (pat : List Char) : List Char → Bool
  | [] => pat.isEmpty
  | c :: rest => pat.isPrefixOf (c :: rest) || listHasSub pat rest

def strContains (hay pat : String) : Bool :=
  listHasSub pat.data hay.data

/-- `IMPACT_POSITIVE_KEYWORDS` of src/backend/main.py. -/
def IMPACT_POSITIVE_KEYWORDS : List (String × Int) :=
  [("실적", 8), ("수주", 12), ("계약", 10), ("양산", 10),
   ("승인", 10), ("흑자", 9), ("사상최대", 12), ("신고가", 7)]

/-- `IMPACT_NEGATIVE_KEYWORDS` of src/backend/main.py. -/
def IMPACT_NEGATIVE_KEYWORDS : List (String × Int) :=
  [("적자", 12), ("실패", 10), ("소송", 10), ("제재", 12),
   ("리스크", 8), ("감원", 8), ("중단", 8), ("하향", 8)]

/-- A feedback signal as attached to a feedback adjustment
(`feedback_adjustment["signal"]`). -/
structure FeedbackSignal where
  ready : Bool
  total_votes : Int
  consensus_label : String
  consensus_ratio : Rat
  ai_match_ratio : Rat
deriving DecidableEq, Repr

/-- The optional `feedback_adjustment` argument of
`calculate_importance_score`. -/
structure FeedbackAdjustment where
  score_delta : Int
  reasons : List String
  signal : FeedbackSignal
deriving DecidableEq, Repr

/-- The reason strings appended by `calculate_importance_score`, with the
interpolated values carried as constructor arguments (the Korean rendering
is presentation only). -/
inductive Reason where
  | newsSurge (ratio : Rat)
  | newsVolumeHigh
  | multiSource (n : Nat)
  | impactKeywords (pts : Int)
  | negativeConcentration
  | positiveConcentration
  | duplicateHeavy
  | duplicateMany
  | feedback (text : String)
deriving DecidableEq, Repr

/-- `unique_topic_count` (= `effective_count`) of a batch. -/
def uniqueCountOf (n : List Article) : Nat :=
  (uniqueNewsByTopic n).length

/-- `topic_ratio = unique_count / raw_count` (0.0 on an empty batch). -/
def topicRatioOf (n : List Article) : Rat :=
  if 0 < n.length then (uniqueCountOf n : Rat) / (n.length : Rat) else 0

/-- `average_count`: rolling average of the history, defaulting to
`max(1, effective_count)` when the history is empty. -/
def averageCountOf (history : List Nat) (effC : Nat) : Rat :=
  if history = [] then ((max 1 effC : Nat) : Rat)
  else (history.sum : Rat) / (history.length : Rat)

/-- `surge_ratio = effective_count / average_count` (1.0 if the average is
not positive). -/
def surgeRatioOf (history : List Nat) (effC : Nat) : Rat :=
  let a := averageCountOf history effC
  if 0 < a then (effC : Rat) / a else 1

/-- Step 1 of the score: news surge / volume contribution. -/
def volumeScore (effC : Nat) (sr : Rat) : Int :=
  if 6 ≤ effC ∧ 3 ≤ sr then 30
  else if 10 ≤ effC then 20
  else 0

/-- Distinct non-empty stripped sources across the raw batch. -/
def sourceCountOf (n : List Article) : Nat :=
  (((n.map (fun a => pyStrip a.source)).filter (fun s => ¬(s = ""))).dedup).length

/-- Step 2 of the score: multi-source contribution. -/
def sourceScore (c : Nat) : Int :=
  if 5 ≤ c then 20
  else if 3 ≤ c then 10
  else 0

/-- Raw impact-keyword sum over the unique-topic articles. -/
def impactRawOf (l : List Article) : Int :=
  l.foldl
    (fun acc a =>
      let pos := IMPACT_POSITIVE_KEYWORDS.foldl
        (fun s kw => if strContains a.title kw.1 then s + kw.2 else s) 0
      let neg := IMPACT_NEGATIVE_KEYWORDS.foldl
        (fun s kw => if strContains a.title kw.1 then s + kw.2 else s) 0
      acc + pos + neg)
    0

/-- Step 3: impact keyword score, capped at 30. -/
def impactScoreOf (l : List Article) : Int :=
  min 30 (impactRawOf l)

/-- The impact contribution is only added when positive. -/
def impactContribution (l : List Article) : Int :=
  if 0 < impactScoreOf l then impactScoreOf l else 0

def negCountOf (n : List Article) : Nat :=
  ((uniqueNewsByTopic n).filter (fun a => a.sentiment_label = "negative")).length

def posCountOf (n : List Article) : Nat :=
  ((uniqueNewsByTopic n).filter (fun a => a.sentiment_label = "positive")).length

/-- Step 4: polarity concentration bonus. -/
def polarityScore (neg pos : Nat) : Int :=
  if 4 ≤ neg then 10
  else if 5 ≤ pos then 5
  else 0

/-- Step 5: duplicate-topic penalty. -/
def dupPenalty (articleCount : Nat) (ratio : Rat) : Int :=
  if 10 ≤ articleCount then
    if ratio < 35/100 then -20
    else if ratio < 1/2 then -10
    else 0
  else 0

/-- The externally supplied feedback delta (0 when absent). -/
def feedbackDelta (fb : Option FeedbackAdjustment) : Int :=
  match fb with
  | some f => f.score_delta
  | none => 0

/-- The additive score before the final clamp. -/
def preScore (n : List Article) (history : List Nat)
    (fb : Option FeedbackAdjustment) : Int :=
  volumeScore (uniqueCountOf n) (surgeRatioOf history (uniqueCountOf n))
    + sourceScore (sourceCountOf n)
    + impactContribution (uniqueNewsByTopic n)
    + polarityScore (negCountOf n) (posCountOf n)
    + dupPenalty n.length (topicRatioOf n)
    + feedbackDelta fb

/-- Step 9: `score = max(0, min(100, score))`. -/
def clampScore (z : Int) : Int :=
  max 0 (min 100 z)

/-- The ordered reason list (volume, sources, impact, polarity, duplicate
penalty, feedback). -/
def reasonsOf (n : List Article) (history : List Nat)
    (fb : Option FeedbackAdjustment) : List Reason :=
  let effC := uniqueCountOf n
  let sr := surgeRatioOf history effC
  (if 6 ≤ effC ∧ 3 ≤ sr then [Reason.newsSurge sr]
   else if 10 ≤ effC then [Reason.newsVolumeHigh] else [])
  ++ (if 3 ≤ sourceCountOf n then [Reason.multiSource (sourceCountOf n)] else [])
  ++ (if 0 < impactScoreOf (uniqueNewsByTopic n) then
        [Reason.impactKeywords (impactScoreOf (uniqueNewsByTopic n))] else [])
  ++ (if 4 ≤ negCountOf n then [Reason.negativeConcentration]
      else if 5 ≤ posCountOf n then [Reason.positiveConcentration] else [])
  ++ (if 10 ≤ n.length ∧ topicRatioOf n < 35/100 then [Reason.duplicateHeavy]
      else if 10 ≤ n.length ∧ topicRatioOf n < 1/2 then [Reason.duplicateMany]
      else [])
  ++ (match fb with
      | some f => (f.reasons.filter (fun s => ¬(s = ""))).map Reason.feedback
      | none => [])

/-- Appending to the bounded rolling history
(`deque(maxlen=40)` of `NEWS_COUNT_HISTORY`). -/
def histAppend (h : List Nat) (x : Nat) : List Nat :=
  let h2 := h ++ [x]
  h2.drop (h2.length - 40)

/-- The value returned by `calculate_importance_score`, together with the
post-call rolling history of the asset (`history` field). -/
structure ScoreResult where
  score : Int
  delivery_level : String
  priority : String
  reasons : List Reason
  article_count : Nat
  effective_count : Nat
  unique_topic_count : Nat
  topic_ratio : Rat
  average_count : Rat
  surge_ratio : Rat
  source_count : Nat
  unique_positive_count : Nat
  unique_negative_count : Nat
  impact_score : Int
  feedback_delta : Int
  history : List Nat
deriving DecidableEq, Repr

/-- `calculate_importance_score` of src/backend/main.py.  The per-asset
deque `NEWS_COUNT_HISTORY[stock_code]` is passed in as `history` and
returned (possibly updated) as the `history` field of the result. -/
def calculateImportanceScore (n : List Article) (history : List Nat)
    (fb : Option FeedbackAdjustment) (updateHistory : Bool) : ScoreResult :=
  let score := clampScore (preScore n history fb)
  let lvl := deliveryLevel score
  { score := score
    delivery_level := lvl
    priority := priorityFromLevel lvl
    reasons := reasonsOf n history fb
    article_count := n.length
    effective_count := uniqueCountOf n
    unique_topic_count := uniqueCountOf n
    topic_ratio := topicRatioOf n
    average_count := averageCountOf history (uniqueCountOf n)
    surge_ratio := surgeRatioOf history (uniqueCountOf n)
    source_count := sourceCountOf n
    unique_positive_count := posCountOf n
    unique_negative_count := negCountOf n
    impact_score := impactScoreOf (uniqueNewsByTopic n)
    feedback_delta := feedbackDelta fb
    history := if updateHistory then histAppend history (uniqueCountOf n) else history }

/-! ## Adaptive threshold controller (apply_adaptive_min_score) -/

/-- The sanitized adaptive runtime configuration, as produced by
`_adaptive_runtime_config_unlocked` (all fields already bounded and with
per-policy overrides applied). -/
structure AdaptiveConfig where
  enabled : Bool
  target_alert_count : Int
  alert_band : Int
  score_step : Int
  min_bound : Int
  max_bound : Int
  current_min_score : Int
deriving DecidableEq, Repr

/-- The decision returned by `apply_adaptive_min_score`. -/
structure AdaptiveDecision where
  enabled : Bool
  direction : String
  old_min_score : Int
  new_min_score : Int
deriving DecidableEq, Repr

/-- `apply_adaptive_min_score` of src/backend/main.py, for a resolved
runtime configuration `cfg` and a cycle alert count `resultCount`. -/
def applyAdaptiveMinScore (cfg : AdaptiveConfig) (resultCount : Int) :
    AdaptiveDecision :=
  let current := cfg.current_min_score
  if cfg.enabled then
    let high := cfg.target_alert_count + cfg.alert_band
    let low := max 0 (cfg.target_alert_count - cfg.alert_band)
    if high < resultCount then
      ⟨true, "up", current, min cfg.max_bound (current + cfg.score_step)⟩
    else if resultCount < low then
      ⟨true, "down", current, max cfg.min_bound (current - cfg.score_step)⟩
    else
      ⟨true, "hold", current, current⟩
  else
    ⟨false, "hold", current, current⟩

/-! ## Feedback store (src/backend/feedback_store.py)

The SQLite tables become lists of typed rows; labels and tester tiers are
inductive types because the schema `CHECK` constraints restrict them to
fixed enumerations.  Store methods become functions from a `Store` to a
`Store` (plus their return payload). -/

inductive Label where
  | positive
  | negative
  | neutral
deriving DecidableEq, Repr

inductive TesterTier where
  | core
  | general
  | observer
deriving DecidableEq, Repr

/-- `TESTER_TIER_WEIGHTS` (core 1.8, general 1.0, observer 0.7). -/
def TESTER_TIER_WEIGHTS : TesterTier → Rat
  | TesterTier.core => 18/10
  | TesterTier.general => 1
  | TesterTier.observer => 7/10

/-- `STOPWORDS` of src/backend/feedback_store.py. -/
def STOPWORDS : List String :=
  ["기자", "뉴스", "관련", "오늘", "단독", "속보", "종합", "시장", "기업", "주식"]

/-- A character matched by the keyword regex `[0-9A-Za-z가-힣]`. -/
def isKwChar (c : Char) : Bool :=
  ('0' ≤ c ∧ c ≤ '9') ∨ ('A' ≤ c ∧ c ≤ 'Z') ∨ ('a' ≤ c ∧ c ≤ 'z') ∨
  (0xAC00 ≤ c.val ∧ c.val ≤ 0xD7A3)

/-- Maximal runs of keyword characters, in order. -/
def kwRunsAux : List Char → List Char → List String
  | [], acc => if acc.isEmpty then [] else [String.mk acc.reverse]
  | c :: rest, acc =>
    if isKwChar c then kwRunsAux rest (c :: acc)
    else if acc.isEmpty then kwRunsAux rest []
    else String.mk acc.reverse :: kwRunsAux rest []

/-- De-duplicate preserving the first occurrence. -/
def dedupKeepFirst : List String → List String → List String
  | [], _ => []
  | s :: rest, seen =>
    if seen.contains s then dedupKeepFirst rest seen
    else s :: dedupKeepFirst rest (s :: seen)

/-- `extract_keywords`: lowercase, take alphanumeric/Hangul runs of length
at least 2, drop stopwords, de-duplicate keeping first occurrence. -/
def extractKeywords (text : String) : List String :=
  let runs := kwRunsAux (text.data.map Char.toLower) []
  dedupKeepFirst
    ((runs.filter (fun t => 2 ≤ t.length)).filter (fun t => ¬ STOPWORDS.contains t))
    []

/-- A row of the `feedback_events` table (with the `trust_weight` and
`weighted_score` columns added by `_ensure_feedback_columns`). -/
structure FeedbackEvent where
  id : Nat
  created_at : String
  user_id_hash : String
  stock_code : String
  article_link : String
  article_title : String
  article_source : String
  ai_label : Label
  user_label : Label
  user_confidence : Int
  trust_weight : Rat
  weighted_score : Rat
  note : String
deriving DecidableEq, Repr

/-- A row of the `keyword_votes` table. -/
structure KeywordVote where
  id : Nat
  feedback_id : Nat
  created_at : String
  keyword : String
  ai_label : Label
  user_label : Label
  weight : Rat
deriving DecidableEq, Repr

/-- A row of `user_trust_profiles` (manual override). -/
structure TrustProfile where
  trust_weight : Rat
  note : String
  updated_at : String
deriving DecidableEq, Repr

/-- A row of `user_tester_tiers`. -/
structure TierProfile where
  tester_tier : TesterTier
  note : String
  updated_at : String
deriving DecidableEq, Repr

/-- The feedback store state: the rows of each table plus the AUTOINCREMENT
counters. -/
structure Store where
  events : List FeedbackEvent
  votes : List KeywordVote
  trustProfiles : List (String × TrustProfile)
  tierProfiles : List (String × TierProfile)
  nextEventId : Nat
  nextVoteId : Nat
deriving DecidableEq, Repr

def alistFind {α : Type} : List (String × α) → String → Option α
  | [], _ => none
  | p :: rest, k => if p.1 == k then some p.2 else alistFind rest k

def alistUpsert {α : Type} (l : List (String × α)) (k : String) (v : α) :
    List (String × α) :=
  if (l.find? (fun p => p.1 == k)).isSome then
    l.map (fun p => if p.1 == k then (k, v) else p)
  else l ++ [(k, v)]

/-- `round(x, 4)`: decimal rounding half-to-even at four decimal places
(Python's `round` on the exact value of the argument). -/
def roundHalfEven (q : Rat) : Int :=
  let f := Int.floor q
  let r := q - f
  if r < 1/2 then f
  else if 1/2 < r then f + 1
  else if f % 2 = 0 then f else f + 1

def round4 (q : Rat) : Rat :=
  (roundHalfEven (q * 10000) : Rat) / 10000

/-- The metadata returned by `_resolve_effective_trust`. -/
structure TrustMeta where
  trust_weight : Rat
  source : String
  tester_tier : Option TesterTier
deriving DecidableEq, Repr

/-- `FeedbackStore._resolve_effective_trust`: manual override, then
tester-tier default, then system default 1.0. -/
def resolveEffectiveTrust (s : Store) (userHash : String) : TrustMeta :=
  match alistFind s.trustProfiles userHash with
  | some p => ⟨p.trust_weight, "manual", none⟩
  | none =>
    match alistFind s.tierProfiles userHash with
    | some t => ⟨TESTER_TIER_WEIGHTS t.tester_tier, "tier_default", some t.tester_tier⟩
    | none => ⟨1, "system_default", none⟩

/-- `FeedbackStore._reweight_user_feedback`: recompute `trust_weight` and
`weighted_score` of every feedback event of the user, and set the weight of
each dependent keyword vote to its parent's new weighted score. -/
def reweightUserFeedback (s : Store) (userHash : String) (w : Rat) : Store :=
  { s with
    events := s.events.map (fun e =>
      if e.user_id_hash == userHash then
        { e with trust_weight := w,
                 weighted_score := round4 ((e.user_confidence : Rat) * w) }
      else e)
    votes := s.votes.map (fun v =>
      match s.events.find? (fun e => e.id == v.feedback_id) with
      | some e =>
        if e.user_id_hash == userHash then
          { v with weight := round4 ((e.user_confidence : Rat) * w) }
        else v
      | none => v) }

/-- The key predicate of the unique index `ux_feedback_user_article`. -/
def eventKeyMatches (userHash link : String) (e : FeedbackEvent) : Bool :=
  e.user_id_hash == userHash && e.article_link == link

/-- Return payload of `submit_feedback`, with the updated store. -/
structure SubmitResult where
  store : Store
  feedback_id : Nat
  vote_action : String
  keyword_count : Nat
  trust_weight : Rat
  weighted_score : Rat
  trust_source : String
deriving Repr

/-- `FeedbackStore.submit_feedback` (modelled at the level of the hashed
user id; raw ids are hashed with SHA-256 before reaching the store).
Resolves the effective trust, upserts the feedback event for
`(user_id_hash, article_link)` overwriting every field on conflict, then
deletes and regenerates the keyword votes of that event. -/
def submitFeedback (s : Store) (userHash stockCode articleLink articleTitle
    articleSource : String) (aiLabel userLabel : Label)
    (userConfidence : Int) (note createdAt : String) : SubmitResult :=
  let confidence : Int := max 1 (min 5 userConfidence)
  let keywords := extractKeywords articleTitle
  let meta := resolveEffectiveTrust s userHash
  let w := meta.trust_weight
  let ws := round4 ((confidence : Rat) * w)
  let mkEvent : Nat → FeedbackEvent := fun i =>
    ⟨i, createdAt, userHash, stockCode, articleLink, articleTitle,
     articleSource, aiLabel, userLabel, confidence, w, ws, note⟩
  let existing := s.events.find? (eventKeyMatches userHash articleLink)
  let fid := match existing with
    | some e0 => e0.id
    | none => s.nextEventId
  let events2 := match existing with
    | some _ => s.events.map (fun e =>
        if eventKeyMatches userHash articleLink e then mkEvent e.id else e)
    | none => s.events ++ [mkEvent s.nextEventId]
  let votesKept := s.votes.filter (fun v => ¬(v.feedback_id = fid))
  let newVotes := keywords.enum.map (fun p =>
    (⟨s.nextVoteId + p.1, fid, createdAt, p.2, aiLabel, userLabel, ws⟩ : KeywordVote))
  { store :=
      { events := events2
        votes := votesKept ++ newVotes
        trustProfiles := s.trustProfiles
        tierProfiles := s.tierProfiles
        nextEventId := if existing.isSome then s.nextEventId else s.nextEventId + 1
        nextVoteId := s.nextVoteId + keywords.length }
    feedback_id := fid
    vote_action := if existing.isSome then "updated" else "created"
    keyword_count := keywords.length
    trust_weight := w
    weighted_score := ws
    trust_source := meta.source }

/-! ### Article summaries (`get_article_summary`) -/

/-- The feedback events recorded for one article link. -/
def articleEvents (s : Store) (link : String) : List FeedbackEvent :=
  s.events.filter (fun e => e.article_link == link)

/-- The weighted vote sum of one user label for an article
(the `SUM(weighted_score) ... GROUP BY user_label` aggregate). -/
def weightedSumFor (s : Store) (link : String) (lab : Label) : Rat :=
  ((articleEvents s link).filter (fun e => e.user_label == lab)).foldl
    (fun acc e => acc + e.weighted_score) 0

/-- Python's `max(weighted.items(), key=...)` over the insertion order
positive, negative, neutral: the first label attaining the maximum wins. -/
def bestLabel (wp wn wu : Rat) : String :=
  if wp < wn then (if wn < wu then "neutral" else "negative")
  else (if wp < wu then "neutral" else "positive")

/-- The weighted sum of the winning (consensus) label. -/
def consensusWeightOf (wp wn wu : Rat) : Rat :=
  let best := bestLabel wp wn wu
  if best = "negative" then wn else if best = "neutral" then wu else wp

/-- The denominator `sum(weighted.values()) or 1.0` of the consensus
ratio. -/
def summaryWeightDenom (s : Store) (link : String) : Rat :=
  let t := weightedSumFor s link Label.positive
    + weightedSumFor s link Label.negative
    + weightedSumFor s link Label.neutral
  if t = 0 then 1 else t

/-- The denominator `max(1, total_votes)` of the AI match ratio. -/
def summaryVoteDenom (s : Store) (link : String) : Nat :=
  max 1 (articleEvents s link).length

/-- The value returned by `get_article_summary`. -/
structure ArticleSummary where
  total_votes : Nat
  unique_users : Nat
  consensus_label : String
  consensus_ratio : Rat
  ai_match_ratio : Rat
  total_weighted_votes : Rat
  breakdown_positive : Nat
  breakdown_negative : Nat
  breakdown_neutral : Nat
  weighted_positive : Rat
  weighted_negative : Rat
  weighted_neutral : Rat
deriving DecidableEq, Repr

/-- The zero-vote summary returned when no feedback exists for the link. -/
def emptySummary : ArticleSummary :=
  ⟨0, 0, "unknown", 0, 0, 0, 0, 0, 0, 0, 0, 0⟩

/-- `FeedbackStore.get_article_summary`. -/
def getArticleSummary (s : Store) (link : String) : ArticleSummary :=
  let evs := articleEvents s link
  if evs.length = 0 then emptySummary
  else
    let wp := weightedSumFor s link Label.positive
    let wn := weightedSumFor s link Label.negative
    let wu := weightedSumFor s link Label.neutral
    let aiMatch := (evs.filter (fun e => e.ai_label == e.user_label)).length
    { total_votes := evs.length
      unique_users := ((evs.map (fun e => e.user_id_hash)).dedup).length
      consensus_label := bestLabel wp wn wu
      consensus_ratio := round4 (consensusWeightOf wp wn wu / summaryWeightDenom s link)
      ai_match_ratio := round4 ((aiMatch : Rat) / (summaryVoteDenom s link : Rat))
      total_weighted_votes := round4 (evs.foldl (fun acc e => acc + e.weighted_score) 0)
      breakdown_positive := (evs.filter (fun e => e.user_label == Label.positive)).length
      breakdown_negative := (evs.filter (fun e => e.user_label == Label.negative)).length
      breakdown_neutral := (evs.filter (fun e => e.user_label == Label.neutral)).length
      weighted_positive := round4 wp
      weighted_negative := round4 wn
      weighted_neutral := round4 wu }

/-! ### Trust and tier management -/

/-- Return payload of `upsert_user_trust_profile`. -/
structure TrustUpsertResult where
  store : Store
  trust_weight : Rat
  updated_feedback_count : Nat
deriving Repr

/-- `FeedbackStore.upsert_user_trust_profile`: bound the weight to
[0.2, 3.0], upsert the manual override row, and re-weight all of the
user's feedback. -/
def upsertUserTrustProfile (s : Store) (userHash : String) (w : Rat)
    (note updatedAt : String) : TrustUpsertResult :=
  let bounded := max (2/10) (min 3 w)
  let s1 :=
    { s with trustProfiles := alistUpsert s.trustProfiles userHash ⟨bounded, note, updatedAt⟩ }
  { store := reweightUserFeedback s1 userHash bounded
    trust_weight := bounded
    updated_feedback_count :=
      (s1.events.filter (fun e => e.user_id_hash == userHash)).length }

/-- Return payload of `clear_user_trust_profile`. -/
structure ClearTrustResult where
  store : Store
  trust_weight : Rat
  source : String
  updated_feedback_count : Nat
deriving Repr

/-- `FeedbackStore.clear_user_trust_profile`: delete the manual override,
re-resolve the effective trust, and re-weight all of the user's feedback to
the newly effective weight. -/
def clearUserTrustProfile (s : Store) (userHash : String) : ClearTrustResult :=
  let s1 :=
    { s with trustProfiles := s.trustProfiles.filter (fun p => ¬(p.1 = userHash)) }
  let meta := resolveEffectiveTrust s1 userHash
  { store := reweightUserFeedback s1 userHash meta.trust_weight
    trust_weight := meta.trust_weight
    source := meta.source
    updated_feedback_count :=
      (s1.events.filter (fun e => e.user_id_hash == userHash)).length }

/-- Return payload of `_upsert_user_tier_by_hash`. -/
structure TierUpsertResult where
  store : Store
  tester_tier : TesterTier
  effective_source : String
  effective_trust_weight : Rat
  updated_feedback_count : Nat
deriving Repr

/-- `FeedbackStore._upsert_user_tier_by_hash` (the body of
`upsert_user_tester_tier` after hashing): upsert the tier row, re-resolve
the effective trust, and re-weight the user's feedback only when the
effective source is the tier default. -/
def upsertUserTesterTier (s : Store) (userHash : String) (tier : TesterTier)
    (note updatedAt : String) : TierUpsertResult :=
  let s1 :=
    { s with tierProfiles := alistUpsert s.tierProfiles userHash ⟨tier, note, updatedAt⟩ }
  let meta := resolveEffectiveTrust s1 userHash
  if meta.source = "tier_default" then
    { store := reweightUserFeedback s1 userHash meta.trust_weight
      tester_tier := tier
      effective_source := meta.source
      effective_trust_weight := meta.trust_weight
      updated_feedback_count :=
        (s1.events.filter (fun e => e.user_id_hash == userHash)).length }
  else
    { store := s1
      tester_tier := tier
      effective_source := meta.source
      effective_trust_weight := meta.trust_weight
      updated_feedback_count := 0 }

/-! ### Store invariants (enforced by the SQLite schema) -/

/-- The unique index `ux_feedback_user_article`: at most one feedback event
per (hashed user, article link). -/
def UniquePairKey (s : Store) : Prop :=
  s.events.Pairwise (fun a b =>
    ¬(a.user_id_hash = b.user_id_hash ∧ a.article_link = b.article_link))

instance (s : Store) : Decidable (UniquePairKey s) := by
  unfold UniquePairKey
  exact List.instDecidablePairwise _

/-- A freshly initialised store (AUTOINCREMENT counters start at 1). -/
def emptyStore : Store :=
  ⟨[], [], [], [], 1, 1⟩

/-- A store with weighted vote sums positive 2, negative 1, neutral 0 for
article link "L" (reachable: confidence 2 and 1 at trust weight 1.0). -/
def twoOneStore : Store :=
  ⟨[⟨1, "t1", "u1", "A", "L", "x", "", Label.positive, Label.positive, 2, 1, 2, ""⟩,
    ⟨2, "t2", "u2", "A", "L", "x", "", Label.negative, Label.negative, 1, 1, 1, ""⟩],
   [], [], [], 3, 1⟩

/-- A store with weighted vote sums positive 6, negative 2, neutral 0 for
article link "L" (the vote multiset of the spec's consensus example). -/
def sixTwoStore : Store :=
  ⟨[⟨1, "t1", "u1", "A", "L", "x", "", Label.positive, Label.positive, 5, 12/10, 6, ""⟩,
    ⟨2, "t2", "u2", "A", "L", "x", "", Label.negative, Label.negative, 2, 1, 2, ""⟩],
   [], [], [], 3, 1⟩

/-- A concrete sanitized adaptive configuration (enabled, target 3, band 1,
step 5, bounds [20, 80], current threshold 50). -/
def sampleAdaptiveConfig : AdaptiveConfig :=
  ⟨true, 3, 1, 5, 20, 80, 50⟩

/-! ## Theorems -/

/-! ### Scoring engine lemmas -/

theorem clampScore_nonneg (z : Int) : 0 ≤ clampScore z := by
  unfold clampScore
  exact le_max_left 0 _

theorem clampScore_le (z : Int) : clampScore z ≤ 100 := by
  unfold clampScore
  rcases le_total 100 (min 100 z) with h | h
  · have := min_le_left 100 z
    simp [max_def]
    omega
  · simp [max_def]
    omega

theorem deliveryLevel_high {z : Int} (h : 70 ≤ z) :
    deliveryLevel z = "push_immediate" := by
  unfold deliveryLevel
  rw [if_pos h]

theorem deliveryLevel_mid {z : Int} (h1 : 40 ≤ z) (h2 : z < 70) :
    deliveryLevel z = "in_app" := by
  unfold deliveryLevel
  rw [if_neg (by omega), if_pos h1]

theorem deliveryLevel_low {z : Int} (h : z < 40) :
    deliveryLevel z = "daily_digest" := by
  unfold deliveryLevel
  rw [if_neg (by omega), if_neg (by omega)]

theorem priorityFromLevel_push : priorityFromLevel "push_immediate" = "high" := by
  rfl

theorem priorityFromLevel_in_app : priorityFromLevel "in_app" = "medium" := by
  rfl

theorem priorityFromLevel_digest : priorityFromLevel "daily_digest" = "low" := by
  rfl

/-- C1: for every article batch, rolling history, rule set and feedback
adjustment, `calculate_importance_score` returns a score clamped into
[0, 100], the delivery tier is the pure function `delivery_level` of that
score with breakpoints 70/40 (score ≥ 70 yields push_immediate/high,
40 ≤ score < 70 yields in_app/medium, score < 40 yields
daily_digest/low, so exactly 70 is push_immediate and exactly 40 is
in_app), and the priority is the pure function `priority_from_level` of the
tier. -/
theorem C1_score_bounds_and_tier (n : List Article) (history : List Nat)
    (fb : Option FeedbackAdjustment) (u : Bool) :
    0 ≤ (calculateImportanceScore n history fb u).score ∧
    (calculateImportanceScore n history fb u).score ≤ 100 ∧
    (calculateImportanceScore n history fb u).delivery_level
      = deliveryLevel (calculateImportanceScore n history fb u).score ∧
    (calculateImportanceScore n history fb u).priority
      = priorityFromLevel (calculateImportanceScore n history fb u).delivery_level ∧
    (70 ≤ (calculateImportanceScore n history fb u).score →
      (calculateImportanceScore n history fb u).delivery_level = "push_immediate" ∧
      (calculateImportanceScore n history fb u).priority = "high") ∧
    (40 ≤ (calculateImportanceScore n history fb u).score ∧
        (calculateImportanceScore n history fb u).score < 70 →
      (calculateImportanceScore n history fb u).delivery_level = "in_app" ∧
      (calculateImportanceScore n history fb u).priority = "medium") ∧
    ((calculateImportanceScore n history fb u).score < 40 →
      (calculateImportanceScore n history fb u).delivery_level = "daily_digest" ∧
      (calculateImportanceScore n history fb u).priority = "low") := by
  refine ⟨clampScore_nonneg _, clampScore_le _, rfl, rfl, ?_, ?_, ?_⟩
  · intro h
    have hl : (calculateImportanceScore n history fb u).delivery_level
        = deliveryLevel (calculateImportanceScore n history fb u).score := rfl
    rw [hl, deliveryLevel_high h]
    refine ⟨rfl, ?_⟩
    have hp : (calculateImportanceScore n history fb u).priority
        = priorityFromLevel (calculateImportanceScore n history fb u).delivery_level := rfl
    rw [hp, hl, deliveryLevel_high h]
    exact priorityFromLevel_push
  · rintro ⟨h1, h2⟩
    have hl : (calculateImportanceScore n history fb u).delivery_level
        = deliveryLevel (calculateImportanceScore n history fb u).score := rfl
    rw [hl, deliveryLevel_mid h1 h2]
    refine ⟨rfl, ?_⟩
    have hp : (calculateImportanceScore n history fb u).priority
        = priorityFromLevel (calculateImportanceScore n history fb u).delivery_level := rfl
    rw [hp, hl, deliveryLevel_mid h1 h2]
    exact priorityFromLevel_in_app
  · intro h
    have hl : (calculateImportanceScore n history fb u).delivery_level
        = deliveryLevel (calculateImportanceScore n history fb u).score := rfl
    rw [hl, deliveryLevel_low h]
    refine ⟨rfl, ?_⟩
    have hp : (calculateImportanceScore n history fb u).priority
        = priorityFromLevel (calculateImportanceScore n history fb u).delivery_level := rfl
    rw [hp, hl, deliveryLevel_low h]
    exact priorityFromLevel_digest

/-- C1 at a concrete input (empty batch, empty history, no feedback). -/
theorem C1_witness :
    0 ≤ (calculateImportanceScore [] [] none false).score ∧
    (calculateImportanceScore [] [] none false).score ≤ 100 ∧
    (calculateImportanceScore [] [] none false).delivery_level
      = deliveryLevel (calculateImportanceScore [] [] none false).score ∧
    (calculateImportanceScore [] [] none false).priority
      = priorityFromLevel (calculateImportanceScore [] [] none false).delivery_level ∧
    (70 ≤ (calculateImportanceScore [] [] none false).score →
      (calculateImportanceScore [] [] none false).delivery_level = "push_immediate" ∧
      (calculateImportanceScore [] [] none false).priority = "high") ∧
    (40 ≤ (calculateImportanceScore [] [] none false).score ∧
        (calculateImportanceScore [] [] none false).score < 70 →
      (calculateImportanceScore [] [] none false).delivery_level = "in_app" ∧
      (calculateImportanceScore [] [] none false).priority = "medium") ∧
    ((calculateImportanceScore [] [] none false).score < 40 →
      (calculateImportanceScore [] [] none false).delivery_level = "daily_digest" ∧
      (calculateImportanceScore [] [] none false).priority = "low") :=
  C1_score_bounds_and_tier [] [] none false

theorem dupPenalty_heavy {c : Nat} {r : Rat} (hc : 10 ≤ c) (hr : r < 35/100) :
    dupPenalty c r = -20 := by
  unfold dupPenalty
  rw [if_pos hc, if_pos hr]

theorem dupPenalty_many {c : Nat} {r : Rat} (hc : 10 ≤ c) (h1 : 35/100 ≤ r)
    (h2 : r < 1/2) : dupPenalty c r = -10 := by
  unfold dupPenalty
  rw [if_pos hc, if_neg (not_lt.mpr h1), if_pos h2]

theorem dupPenalty_ne_zero_iff (c : Nat) (r : Rat) :
    ¬ dupPenalty c r = 0 ↔ (10 ≤ c ∧ r < 1/2) := by
  unfold dupPenalty
  split_ifs with h1 h2 h3
  · exact iff_of_true (by norm_num) ⟨h1, by linarith [h2]⟩
  · exact iff_of_true (by norm_num) ⟨h1, h3⟩
  · exact iff_of_false (by simp) (fun hx => h3 hx.2)
  · exact iff_of_false (by simp) (fun hx => h1 hx.1)

theorem dupPenalty_zero_at_half (c : Nat) : dupPenalty c (1/2) = 0 := by
  unfold dupPenalty
  split_ifs with h1 h2 h3
  · norm_num at h2
  · norm_num at h3
  · rfl
  · rfl

/-- C2: in `calculate_importance_score` the clamped score contains the
duplicate-topic penalty term `dupPenalty raw_count topic_ratio`; that
penalty is non-zero exactly when the raw article count is at least 10 and
`topic_ratio = unique_count / raw_count` is below 0.5; when it applies it
is −20 for ratios below 0.35 and −10 for ratios in [0.35, 0.5); a ratio of
exactly 0.5 yields no penalty. -/
theorem C2_duplicate_topic_penalty (n : List Article) (history : List Nat)
    (fb : Option FeedbackAdjustment) (u : Bool) :
    (calculateImportanceScore n history fb u).score
      = clampScore
          (volumeScore (uniqueCountOf n) (surgeRatioOf history (uniqueCountOf n))
            + sourceScore (sourceCountOf n)
            + impactContribution (uniqueNewsByTopic n)
            + polarityScore (negCountOf n) (posCountOf n)
            + dupPenalty n.length (topicRatioOf n)
            + feedbackDelta fb) ∧
    (¬ dupPenalty n.length (topicRatioOf n) = 0 ↔
      (10 ≤ n.length ∧ topicRatioOf n < 1/2)) ∧
    (10 ≤ n.length → topicRatioOf n < 35/100 →
      dupPenalty n.length (topicRatioOf n) = -20) ∧
    (10 ≤ n.length → 35/100 ≤ topicRatioOf n → topicRatioOf n < 1/2 →
      dupPenalty n.length (topicRatioOf n) = -10) ∧
    (topicRatioOf n = 1/2 → dupPenalty n.length (topicRatioOf n) = 0) :=
  ⟨rfl, dupPenalty_ne_zero_iff n.length (topicRatioOf n),
   fun hc hr => dupPenalty_heavy hc hr,
   fun hc h1 h2 => dupPenalty_many hc h1 h2,
   fun hh => by rw [hh]; exact dupPenalty_zero_at_half n.length⟩

/-- C2 at a concrete input (empty batch, empty history, no feedback). -/
theorem C2_witness :
    (calculateImportanceScore [] [] none false).score
      = clampScore
          (volumeScore (uniqueCountOf []) (surgeRatioOf [] (uniqueCountOf []))
            + sourceScore (sourceCountOf [])
            + impactContribution (uniqueNewsByTopic [])
            + polarityScore (negCountOf []) (posCountOf [])
            + dupPenalty (List.length ([] : List Article)) (topicRatioOf [])
            + feedbackDelta none) ∧
    (¬ dupPenalty (List.length ([] : List Article)) (topicRatioOf []) = 0 ↔
      (10 ≤ List.length ([] : List Article) ∧ topicRatioOf [] < 1/2)) ∧
    (10 ≤ List.length ([] : List Article) → topicRatioOf [] < 35/100 →
      dupPenalty (List.length ([] : List Article)) (topicRatioOf []) = -20) ∧
    (10 ≤ List.length ([] : List Article) → 35/100 ≤ topicRatioOf [] →
        topicRatioOf [] < 1/2 →
      dupPenalty (List.length ([] : List Article)) (topicRatioOf []) = -10) ∧
    (topicRatioOf [] = 1/2 →
      dupPenalty (List.length ([] : List Article)) (topicRatioOf []) = 0) :=
  C2_duplicate_topic_penalty [] [] none false

/-- C8: `calculate_importance_score` appends `unique_count` (the
deduplicated topic count, reported as `effective_count`) to the asset's
rolling history exactly when `update_history` is true; with
`update_history` false the history is left entirely unchanged.  While the
bounded window (40 entries) is not full, the append is a plain append. -/
theorem C8_history_update (n : List Article) (history : List Nat)
    (fb : Option FeedbackAdjustment) :
    (calculateImportanceScore n history fb true).history
      = histAppend history (uniqueCountOf n) ∧
    (calculateImportanceScore n history fb false).history = history ∧
    (calculateImportanceScore n history fb true).effective_count
      = uniqueCountOf n ∧
    (history.length < 40 →
      histAppend history (uniqueCountOf n) = history ++ [uniqueCountOf n]) := by
  refine ⟨rfl, rfl, rfl, ?_⟩
  intro hlen
  show List.drop ((history ++ [uniqueCountOf n]).length - 40)
      (history ++ [uniqueCountOf n]) = history ++ [uniqueCountOf n]
  have hz : (history ++ [uniqueCountOf n]).length - 40 = 0 := by
    simp only [List.length_append, List.length_cons, List.length_nil]
    omega
  rw [hz, List.drop_zero]

/-- C8 at a concrete input (empty batch, empty history, no feedback). -/
theorem C8_witness :
    (calculateImportanceScore [] [] none true).history
      = histAppend [] (uniqueCountOf []) ∧
    (calculateImportanceScore [] [] none false).history = [] ∧
    (calculateImportanceScore [] [] none true).effective_count
      = uniqueCountOf [] ∧
    (List.length ([] : List Nat) < 40 →
      histAppend [] (uniqueCountOf []) = [] ++ [uniqueCountOf []]) :=
  C8_history_update [] [] none

theorem surgeRatioOf_nil_le_one (e : Nat) : surgeRatioOf [] e ≤ 1 := by
  have ha : averageCountOf [] e = ((max 1 e : Nat) : Rat) := by
    unfold averageCountOf
    rw [if_pos rfl]
  unfold surgeRatioOf
  rw [ha]
  rcases Nat.eq_zero_or_pos e with he | he
  · subst he
    simp
  · have hmax : max 1 e = e := Nat.max_eq_right he
    rw [hmax]
    have hpos : (0 : Rat) < (e : Rat) := by exact_mod_cast he
    rw [if_pos hpos, div_self (ne_of_gt hpos)]

/-- C9: on an empty rolling history the rolling average defaults to
`max(1, unique_count)`, so the surge ratio is at most 1, the +30 surge
branch of the volume score is unreachable (the volume contribution is at
most +20), and no surge reason is emitted. -/
theorem C9_no_surge_on_first_pass (n : List Article)
    (fb : Option FeedbackAdjustment) (u : Bool) :
    (calculateImportanceScore n [] fb u).surge_ratio ≤ 1 ∧
    volumeScore (uniqueCountOf n) (surgeRatioOf [] (uniqueCountOf n)) ≤ 20 ∧
    (∀ q : Rat,
      Reason.newsSurge q ∉ (calculateImportanceScore n [] fb u).reasons) := by
  have hsr := surgeRatioOf_nil_le_one (uniqueCountOf n)
  have hnc : ¬ (6 ≤ uniqueCountOf n ∧ 3 ≤ surgeRatioOf [] (uniqueCountOf n)) := by
    rintro ⟨-, h3⟩
    have : (3 : Rat) ≤ 1 := le_trans h3 hsr
    norm_num at this
  refine ⟨hsr, ?_, ?_⟩
  · unfold volumeScore
    rw [if_neg hnc]
    split_ifs <;> norm_num
  · intro q
    show Reason.newsSurge q ∉ reasonsOf n [] fb
    unfold reasonsOf
    simp only [List.mem_append, not_or]
    rw [if_neg hnc]
    refine ⟨⟨⟨⟨⟨?_, ?_⟩, ?_⟩, ?_⟩, ?_⟩, ?_⟩
    · split_ifs <;> simp
    · split_ifs <;> simp
    · split_ifs <;> simp
    · split_ifs <;> simp
    · split_ifs <;> simp
    · cases fb with
      | none => simp
      | some f => simp

/-- C9 at a concrete input (empty batch, no feedback). -/
theorem C9_witness :
    (calculateImportanceScore [] [] none false).surge_ratio ≤ 1 ∧
    volumeScore (uniqueCountOf []) (surgeRatioOf [] (uniqueCountOf [])) ≤ 20 ∧
    (∀ q : Rat,
      Reason.newsSurge q ∉ (calculateImportanceScore [] [] none false).reasons) :=
  C9_no_surge_on_first_pass [] none false

/-! ### Adaptive threshold controller -/

/-- C3: for every enabled adaptive configuration with
`target_alert_count = 3` and `alert_band = 1`, `apply_adaptive_min_score`
moves `current_min_score` up by one `score_step` clamped at `max_bound`
for an alert count of 5, down by one `score_step` clamped at `min_bound`
for an alert count of 1, and holds it unchanged for alert counts 2, 3
and 4. -/
theorem C3_adaptive_band (cfg : AdaptiveConfig) (he : cfg.enabled = true)
    (ht : cfg.target_alert_count = 3) (hb : cfg.alert_band = 1) :
    applyAdaptiveMinScore cfg 5
      = ⟨true, "up", cfg.current_min_score,
         min cfg.max_bound (cfg.current_min_score + cfg.score_step)⟩ ∧
    applyAdaptiveMinScore cfg 1
      = ⟨true, "down", cfg.current_min_score,
         max cfg.min_bound (cfg.current_min_score - cfg.score_step)⟩ ∧
    applyAdaptiveMinScore cfg 2
      = ⟨true, "hold", cfg.current_min_score, cfg.current_min_score⟩ ∧
    applyAdaptiveMinScore cfg 3
      = ⟨true, "hold", cfg.current_min_score, cfg.current_min_score⟩ ∧
    applyAdaptiveMinScore cfg 4
      = ⟨true, "hold", cfg.current_min_score, cfg.current_min_score⟩ := by
  unfold applyAdaptiveMinScore
  rw [he, ht, hb]
  norm_num

/-- C3 at the concrete configuration
(enabled, target 3, band 1, step 5, bounds [20, 80], current 50). -/
theorem C3_witness :
    applyAdaptiveMinScore sampleAdaptiveConfig 5
      = ⟨true, "up", sampleAdaptiveConfig.current_min_score,
         min sampleAdaptiveConfig.max_bound
           (sampleAdaptiveConfig.current_min_score + sampleAdaptiveConfig.score_step)⟩ ∧
    applyAdaptiveMinScore sampleAdaptiveConfig 1
      = ⟨true, "down", sampleAdaptiveConfig.current_min_score,
         max sampleAdaptiveConfig.min_bound
           (sampleAdaptiveConfig.current_min_score - sampleAdaptiveConfig.score_step)⟩ ∧
    applyAdaptiveMinScore sampleAdaptiveConfig 2
      = ⟨true, "hold", sampleAdaptiveConfig.current_min_score,
         sampleAdaptiveConfig.current_min_score⟩ ∧
    applyAdaptiveMinScore sampleAdaptiveConfig 3
      = ⟨true, "hold", sampleAdaptiveConfig.current_min_score,
         sampleAdaptiveConfig.current_min_score⟩ ∧
    applyAdaptiveMinScore sampleAdaptiveConfig 4
      = ⟨true, "hold", sampleAdaptiveConfig.current_min_score,
         sampleAdaptiveConfig.current_min_score⟩ :=
  C3_adaptive_band sampleAdaptiveConfig rfl rfl rfl

/-! ### Feedback store -/

/-- C10: for an article link with no recorded feedback,
`get_article_summary` returns the total zero summary (0 votes, 0 users,
consensus "unknown", ratios 0.0, all breakdown counts 0) rather than
failing; the two division denominators it uses
(`sum(weighted) or 1.0` and `max(1, total_votes)`) are non-zero for every
store, so no division by zero can occur. -/
theorem C10_empty_summary_total (s : Store) (link : String) :
    (articleEvents s link = [] → getArticleSummary s link = emptySummary) ∧
    ¬ summaryWeightDenom s link = 0 ∧
    0 < summaryVoteDenom s link := by
  refine ⟨?_, ?_, ?_⟩
  · intro h
    unfold getArticleSummary
    rw [h]
    rfl
  · simp only [summaryWeightDenom]
    split_ifs with h
    · norm_num
    · exact h
  · unfold summaryVoteDenom
    exact Nat.lt_of_lt_of_le Nat.zero_lt_one (le_max_left 1 _)

/-- C10 at a concrete input (the empty store). -/
theorem C10_witness :
    (articleEvents emptyStore "L" = [] →
      getArticleSummary emptyStore "L" = emptySummary) ∧
    ¬ summaryWeightDenom emptyStore "L" = 0 ∧
    0 < summaryVoteDenom emptyStore "L" :=
  C10_empty_summary_total emptyStore "L"

theorem alistFind_filter_self {α : Type} (l : List (String × α)) (k : String) :
    alistFind (l.filter (fun p => ¬(p.1 = k))) k = none := by
  induction l with
  | nil => rfl
  | cons a l ih =>
      rw [List.filter_cons]
      by_cases hak : a.1 = k
      · rw [if_neg (by simp [hak])]
        exact ih
      · rw [if_pos (by simp [hak])]
        unfold alistFind
        rw [if_neg (by simp [hak])]
        exact ih

theorem find?_map_comm {α : Type} (g : α → α) (p : α → Bool) (l : List α)
    (hp : ∀ x, p (g x) = p x) : (l.map g).find? p = (l.find? p).map g := by
  induction l with
  | nil => rfl
  | cons a l ih =>
      simp only [List.map_cons, List.find?_cons]
      rw [hp a]
      cases hpa : p a
      · simpa [hpa] using ih
      · simp [hpa]

/-- After a re-weighting pass, every feedback event of the user carries the
new trust weight and the recomputed weighted score. -/
theorem reweight_events_spec (s : Store) (userHash : String) (w : Rat) :
    ∀ e ∈ (reweightUserFeedback s userHash w).events,
      e.user_id_hash = userHash →
        e.trust_weight = w ∧
        e.weighted_score = round4 ((e.user_confidence : Rat) * w) := by
  intro e he hh
  unfold reweightUserFeedback at he
  simp only at he
  rcases List.mem_map.mp he with ⟨e0, he0, heq⟩
  by_cases hc : e0.user_id_hash == userHash
  · rw [if_pos hc] at heq
    subst heq
    exact ⟨rfl, rfl⟩
  · rw [if_neg hc] at heq
    subst heq
    exact absurd (beq_iff_eq.mpr hh) hc

/-- After a re-weighting pass, every keyword vote whose parent event
belongs to the user carries the parent's new weighted score. -/
theorem reweight_votes_spec (s : Store) (userHash : String) (w : Rat) :
    ∀ v ∈ (reweightUserFeedback s userHash w).votes,
      ∀ e,
        (reweightUserFeedback s userHash w).events.find?
            (fun x => x.id == v.feedback_id) = some e →
        e.user_id_hash = userHash → v.weight = e.weighted_score := by
  intro v hv e hfind hh
  unfold reweightUserFeedback at hv hfind
  simp only at hv hfind
  rcases List.mem_map.mp hv with ⟨v0, hv0, hveq⟩
  have hid : ∀ x : FeedbackEvent,
      ((fun x : FeedbackEvent => x.id == v.feedback_id)
        ((fun e : FeedbackEvent =>
          if e.user_id_hash == userHash then
            { e with trust_weight := w,
                     weighted_score := round4 ((e.user_confidence : Rat) * w) }
          else e) x))
      = (fun x : FeedbackEvent => x.id == v.feedback_id) x := by
    intro x
    by_cases hx : x.user_id_hash == userHash
    · simp [hx]
    · simp [hx]
  rw [find?_map_comm _ _ _ hid] at hfind
  cases hf0 : s.events.find? (fun x => x.id == v.feedback_id) with
  | none => rw [hf0] at hfind; simp at hfind
  | some e0 =>
      rw [hf0] at hfind
      simp only [Option.map_some', Option.some.injEq] at hfind
      -- v0's feedback_id equals v's feedback_id in all cases below
      by_cases hc : e0.user_id_hash == userHash
      · rw [if_pos hc] at hfind
        subst hfind
        -- v = gv v0 where gv looked up the same parent e0
        have hvid : v.feedback_id = v0.feedback_id := by
          cases hm : s.events.find? (fun x => x.id == v0.feedback_id) with
          | none => rw [hm] at hveq; subst hveq; rfl
          | some e1 =>
              rw [hm] at hveq
              by_cases hc1 : e1.user_id_hash == userHash
              · simp [hc1] at hveq
                subst hveq
                rfl
              · simp [hc1] at hveq
                subst hveq
                rfl
        rw [hvid] at hf0
        rw [hf0] at hveq
        simp [hc] at hveq
        subst hveq
        rfl
      · rw [if_neg hc] at hfind
        subst hfind
        exact absurd (beq_iff_eq.mpr hh) hc

/-- C5: the effective trust weight resolves with precedence manual
override, then tester-tier default (core 1.8, general 1.0, observer 0.7),
then system default 1.0; and `clear_user_trust_profile` removes the
override, makes the next rule in the chain effective, and re-weights all of
the user's feedback events (trust weight and weighted score) and their
dependent keyword votes to the new effective weight. -/
theorem C5_trust_precedence_and_clear (s : Store) (userHash : String) :
    (∀ p, alistFind s.trustProfiles userHash = some p →
      resolveEffectiveTrust s userHash = ⟨p.trust_weight, "manual", none⟩) ∧
    (alistFind s.trustProfiles userHash = none →
      ∀ t, alistFind s.tierProfiles userHash = some t →
        resolveEffectiveTrust s userHash
          = ⟨TESTER_TIER_WEIGHTS t.tester_tier, "tier_default",
             some t.tester_tier⟩) ∧
    (alistFind s.trustProfiles userHash = none →
      alistFind s.tierProfiles userHash = none →
        resolveEffectiveTrust s userHash = ⟨1, "system_default", none⟩) ∧
    TESTER_TIER_WEIGHTS TesterTier.core = 18/10 ∧
    TESTER_TIER_WEIGHTS TesterTier.general = 1 ∧
    TESTER_TIER_WEIGHTS TesterTier.observer = 7/10 ∧
    alistFind (clearUserTrustProfile s userHash).store.trustProfiles userHash
      = none ∧
    (clearUserTrustProfile s userHash).trust_weight
      = (resolveEffectiveTrust (clearUserTrustProfile s userHash).store
          userHash).trust_weight ∧
    (∀ e ∈ (clearUserTrustProfile s userHash).store.events,
      e.user_id_hash = userHash →
        e.trust_weight = (clearUserTrustProfile s userHash).trust_weight ∧
        e.weighted_score = round4 ((e.user_confidence : Rat)
          * (clearUserTrustProfile s userHash).trust_weight)) ∧
    (∀ v ∈ (clearUserTrustProfile s userHash).store.votes,
      ∀ e, (clearUserTrustProfile s userHash).store.events.find?
          (fun x => x.id == v.feedback_id) = some e →
        e.user_id_hash = userHash → v.weight = e.weighted_score) := by
  refine ⟨?_, ?_, ?_, rfl, rfl, rfl, ?_, rfl, ?_, ?_⟩
  · intro p hp
    unfold resolveEffectiveTrust
    rw [hp]
  · intro hm t ht
    unfold resolveEffectiveTrust
    rw [hm, ht]
  · intro hm ht
    unfold resolveEffectiveTrust
    rw [hm, ht]
  · exact alistFind_filter_self s.trustProfiles userHash
  · exact reweight_events_spec _ userHash _
  · exact reweight_votes_spec _ userHash _

/-- C5 at a concrete input (the empty store and a sample user hash). -/
theorem C5_witness :
    (∀ p, alistFind emptyStore.trustProfiles "u" = some p →
      resolveEffectiveTrust emptyStore "u" = ⟨p.trust_weight, "manual", none⟩) ∧
    (alistFind emptyStore.trustProfiles "u" = none →
      ∀ t, alistFind emptyStore.tierProfiles "u" = some t →
        resolveEffectiveTrust emptyStore "u"
          = ⟨TESTER_TIER_WEIGHTS t.tester_tier, "tier_default",
             some t.tester_tier⟩) ∧
    (alistFind emptyStore.trustProfiles "u" = none →
      alistFind emptyStore.tierProfiles "u" = none →
        resolveEffectiveTrust emptyStore "u" = ⟨1, "system_default", none⟩) ∧
    TESTER_TIER_WEIGHTS TesterTier.core = 18/10 ∧
    TESTER_TIER_WEIGHTS TesterTier.general = 1 ∧
    TESTER_TIER_WEIGHTS TesterTier.observer = 7/10 ∧
    alistFind (clearUserTrustProfile emptyStore "u").store.trustProfiles "u"
      = none ∧
    (clearUserTrustProfile emptyStore "u").trust_weight
      = (resolveEffectiveTrust (clearUserTrustProfile emptyStore "u").store
          "u").trust_weight ∧
    (∀ e ∈ (clearUserTrustProfile emptyStore "u").store.events,
      e.user_id_hash = "u" →
        e.trust_weight = (clearUserTrustProfile emptyStore "u").trust_weight ∧
        e.weighted_score = round4 ((e.user_confidence : Rat)
          * (clearUserTrustProfile emptyStore "u").trust_weight)) ∧
    (∀ v ∈ (clearUserTrustProfile emptyStore "u").store.votes,
      ∀ e, (clearUserTrustProfile emptyStore "u").store.events.find?
          (fun x => x.id == v.feedback_id) = some e →
        e.user_id_hash = "u" → v.weight = e.weighted_score) :=
  C5_trust_precedence_and_clear emptyStore "u"

theorem alistFind_map_upsert {α : Type} (k : String) (v : α) :
    ∀ l : List (String × α), (l.find? (fun p => p.1 == k)).isSome = true →
      alistFind (l.map (fun p => if p.1 == k then (k, v) else p)) k = some v := by
  intro l
  induction l with
  | nil => intro h; simp at h
  | cons a l ih =>
      intro h
      by_cases hab : (a.1 == k) = true
      · rw [List.map_cons, if_pos hab]
        unfold alistFind
        rw [if_pos (beq_self_eq_true k)]
      · rw [List.map_cons, if_neg hab]
        have h' : (l.find? (fun p => p.1 == k)).isSome = true := by
          rw [List.find?_cons] at h
          simp only [hab] at h
          simpa using h
        unfold alistFind
        rw [if_neg hab]
        exact ih h'

theorem alistFind_append_single {α : Type} (k : String) (v : α) :
    ∀ l : List (String × α), l.find? (fun p => p.1 == k) = none →
      alistFind (l ++ [(k, v)]) k = some v := by
  intro l
  induction l with
  | nil =>
      intro h
      show alistFind ([(k, v)] : List (String × α)) k = some v
      unfold alistFind
      rw [if_pos (beq_self_eq_true k)]
  | cons a l ih =>
      intro h
      have h2 := List.find?_eq_none.mp h
      have ha : ¬((a.1 == k) = true) := h2 a (by simp)
      have hl : l.find? (fun p => p.1 == k) = none :=
        List.find?_eq_none.mpr (fun x hx => h2 x (by simp [hx]))
      rw [List.cons_append]
      unfold alistFind
      rw [if_neg ha]
      exact ih hl

theorem alistFind_upsert_self {α : Type} (l : List (String × α)) (k : String)
    (v : α) : alistFind (alistUpsert l k v) k = some v := by
  unfold alistUpsert
  by_cases h : (l.find? (fun p => p.1 == k)).isSome
  · rw [if_pos h]
    exact alistFind_map_upsert k v l h
  · rw [if_neg h]
    exact alistFind_append_single k v l (Option.not_isSome_iff_eq_none.mp h)

/-- C7: assigning a tester tier re-weights the user's stored feedback only
when the user's effective trust source is the tier default.  For a user
with an active manual override the stored tier changes but every feedback
event and keyword vote row is left byte-for-byte unchanged; without an
override the assignment re-weights the user's events to the tier's default
weight. -/
theorem C7_tier_assignment_frame (s : Store) (userHash : String)
    (tier : TesterTier) (note ts : String) :
    (∀ p, alistFind s.trustProfiles userHash = some p →
      (upsertUserTesterTier s userHash tier note ts).store.events = s.events ∧
      (upsertUserTesterTier s userHash tier note ts).store.votes = s.votes ∧
      (upsertUserTesterTier s userHash tier note ts).updated_feedback_count
          = 0 ∧
      (upsertUserTesterTier s userHash tier note ts).effective_source
          = "manual" ∧
      alistFind
          (upsertUserTesterTier s userHash tier note ts).store.tierProfiles
          userHash
        = some ⟨tier, note, ts⟩) ∧
    (alistFind s.trustProfiles userHash = none →
      (upsertUserTesterTier s userHash tier note ts).effective_source
          = "tier_default" ∧
      (upsertUserTesterTier s userHash tier note ts).effective_trust_weight
          = TESTER_TIER_WEIGHTS tier ∧
      (∀ e ∈ (upsertUserTesterTier s userHash tier note ts).store.events,
        e.user_id_hash = userHash →
          e.trust_weight = TESTER_TIER_WEIGHTS tier ∧
          e.weighted_score
            = round4 ((e.user_confidence : Rat) * TESTER_TIER_WEIGHTS tier))) := by
  constructor
  · intro p hp
    have hres : resolveEffectiveTrust
        { s with tierProfiles := alistUpsert s.tierProfiles userHash ⟨tier, note, ts⟩ }
        userHash = ⟨p.trust_weight, "manual", none⟩ := by
      unfold resolveEffectiveTrust
      rw [show alistFind
          (Store.trustProfiles
            { s with tierProfiles := alistUpsert s.tierProfiles userHash ⟨tier, note, ts⟩ })
          userHash = some p from hp]
    simp only [upsertUserTesterTier, hres]
    rw [if_neg (by decide : ¬("manual" = "tier_default"))]
    exact ⟨rfl, rfl, rfl, rfl,
      alistFind_upsert_self s.tierProfiles userHash ⟨tier, note, ts⟩⟩
  · intro hm
    have hres : resolveEffectiveTrust
        { s with tierProfiles := alistUpsert s.tierProfiles userHash ⟨tier, note, ts⟩ }
        userHash = ⟨TESTER_TIER_WEIGHTS tier, "tier_default", some tier⟩ := by
      unfold resolveEffectiveTrust
      rw [show alistFind
          (Store.trustProfiles
            { s with tierProfiles := alistUpsert s.tierProfiles userHash ⟨tier, note, ts⟩ })
          userHash = none from hm]
      rw [show alistFind
          (Store.tierProfiles
            { s with tierProfiles := alistUpsert s.tierProfiles userHash ⟨tier, note, ts⟩ })
          userHash = some ⟨tier, note, ts⟩ from
        alistFind_upsert_self s.tierProfiles userHash ⟨tier, note, ts⟩]
    simp only [upsertUserTesterTier, hres]
    rw [if_pos trivial]
    exact ⟨rfl, rfl, reweight_events_spec _ userHash _⟩

/-- C7 at a concrete input (empty store, core tier). -/
theorem C7_witness :
    (∀ p, alistFind emptyStore.trustProfiles "u" = some p →
      (upsertUserTesterTier emptyStore "u" TesterTier.core "n" "t").store.events
          = emptyStore.events ∧
      (upsertUserTesterTier emptyStore "u" TesterTier.core "n" "t").store.votes
          = emptyStore.votes ∧
      (upsertUserTesterTier emptyStore "u" TesterTier.core "n" "t").updated_feedback_count
          = 0 ∧
      (upsertUserTesterTier emptyStore "u" TesterTier.core "n" "t").effective_source
          = "manual" ∧
      alistFind
          (upsertUserTesterTier emptyStore "u" TesterTier.core "n" "t").store.tierProfiles
          "u"
        = some ⟨TesterTier.core, "n", "t"⟩) ∧
    (alistFind emptyStore.trustProfiles "u" = none →
      (upsertUserTesterTier emptyStore "u" TesterTier.core "n" "t").effective_source
          = "tier_default" ∧
      (upsertUserTesterTier emptyStore "u" TesterTier.core "n" "t").effective_trust_weight
          = TESTER_TIER_WEIGHTS TesterTier.core ∧
      (∀ e ∈ (upsertUserTesterTier emptyStore "u" TesterTier.core "n" "t").store.events,
        e.user_id_hash = "u" →
          e.trust_weight = TESTER_TIER_WEIGHTS TesterTier.core ∧
          e.weighted_score
            = round4 ((e.user_confidence : Rat)
                * TESTER_TIER_WEIGHTS TesterTier.core))) :=
  C7_tier_assignment_frame emptyStore "u" TesterTier.core "n" "t"

theorem filter_map_none {α : Type} (p : α → Bool) (f : α → α) :
    ∀ l : List α, (∀ b ∈ l, p b = false) →
      (l.map (fun x => if p x then f x else x)).filter p = [] := by
  intro l hl
  induction l with
  | nil => rfl
  | cons a l ih =>
      have ha := hl a (List.mem_cons_self a l)
      rw [List.map_cons, if_neg (by simp [ha])]
      rw [List.filter_cons_of_neg (by simp [ha])]
      exact ih (fun b hb => hl b (List.mem_cons_of_mem a hb))

theorem filter_map_replace {α : Type} (p : α → Bool) (f : α → α) (a0 : α)
    (hpf : ∀ a, p a = true → p (f a) = true) :
    ∀ l : List α, l.find? p = some a0 →
      l.Pairwise (fun a b => ¬(p a = true ∧ p b = true)) →
      (l.map (fun x => if p x then f x else x)).filter p = [f a0] := by
  intro l
  induction l with
  | nil => intro hfind _; simp at hfind
  | cons a l ih =>
      intro hfind hpw
      by_cases hpa : p a = true
      · have ha0 : a = a0 := by
          rw [List.find?_cons] at hfind
          rw [hpa] at hfind
          simpa using hfind
        have hrest : ∀ b ∈ l, p b = false := by
          intro b hb
          have hnot := (List.pairwise_cons.mp hpw).1 b hb
          cases hpb : p b
          · rfl
          · exact absurd ⟨hpa, hpb⟩ hnot
        rw [List.map_cons, if_pos hpa]
        rw [List.filter_cons_of_pos (hpf a hpa)]
        rw [filter_map_none p f l hrest, ha0]
      · rw [List.map_cons, if_neg hpa]
        rw [List.filter_cons_of_neg hpa]
        have hfind' : l.find? p = some a0 := by
          rw [List.find?_cons] at hfind
          cases hb : p a
          · rw [hb] at hfind; exact hfind
          · exact absurd hb hpa
        exact ih hfind' (List.pairwise_cons.mp hpw).2

theorem filter_key_transfer (g : FeedbackEvent → FeedbackEvent)
    (hg : ∀ x, (g x).user_id_hash = x.user_id_hash ∧
      (g x).article_link = x.article_link)
    (l : List FeedbackEvent)
    (h : l.Pairwise (fun a b =>
      ¬(a.user_id_hash = b.user_id_hash ∧ a.article_link = b.article_link))) :
    (l.map g).Pairwise (fun a b =>
      ¬(a.user_id_hash = b.user_id_hash ∧ a.article_link = b.article_link)) := by
  rw [List.pairwise_map]
  refine h.imp ?_
  intro a b hab hcon
  exact hab ⟨((hg a).1.symm.trans hcon.1).trans (hg b).1,
    ((hg a).2.symm.trans hcon.2).trans (hg b).2⟩

theorem votes_filter_regen (votes : List KeywordVote) (fid : Nat)
    (newVotes : List KeywordVote)
    (hall : ∀ v ∈ newVotes, v.feedback_id = fid) :
    ((votes.filter (fun v => ¬(v.feedback_id = fid))) ++ newVotes).filter
        (fun v => v.feedback_id == fid) = newVotes := by
  rw [List.filter_append]
  have h1 : (votes.filter (fun v => ¬(v.feedback_id = fid))).filter
      (fun v => v.feedback_id == fid) = [] := by
    apply List.filter_eq_nil_iff.mpr
    intro v hv
    have hne := (List.mem_filter.mp hv).2
    simp at hne ⊢
    exact hne
  have h2 : newVotes.filter (fun v => v.feedback_id == fid) = newVotes := by
    apply List.filter_eq_self.mpr
    intro v hv
    simp [hall v hv]
  rw [h1, h2, List.nil_append]

/-- C4: submitting feedback for a (hashed user id, article link) pair
upserts: starting from any store satisfying the unique-index invariant,
after `submit_feedback` there is exactly one feedback event for the pair,
all of its fields are those of the latest submission (clamped confidence,
freshly resolved trust weight, recomputed weighted score, new timestamp),
the keyword votes linked to it are exactly the votes regenerated from the
latest title's keywords with the latest weighted score — no earlier vote
survives — and the unique-index invariant is preserved, so the argument
extends to any sequence of submissions. -/
theorem C4_submit_feedback_upsert (s : Store) (h sc lk ti src : String)
    (al ul : Label) (cf : Int) (nt ts : String)
    (hu : UniquePairKey s) :
    ((submitFeedback s h sc lk ti src al ul cf nt ts).store.events.filter
        (eventKeyMatches h lk))
      = [⟨(submitFeedback s h sc lk ti src al ul cf nt ts).feedback_id,
          ts, h, sc, lk, ti, src, al, ul, max 1 (min 5 cf),
          (resolveEffectiveTrust s h).trust_weight,
          round4 (((max 1 (min 5 cf) : Int) : Rat)
            * (resolveEffectiveTrust s h).trust_weight), nt⟩] ∧
    ((submitFeedback s h sc lk ti src al ul cf nt ts).store.votes.filter
        (fun v => v.feedback_id
          == (submitFeedback s h sc lk ti src al ul cf nt ts).feedback_id))
      = (extractKeywords ti).enum.map (fun q =>
          (⟨s.nextVoteId + q.1,
            (submitFeedback s h sc lk ti src al ul cf nt ts).feedback_id,
            ts, q.2, al, ul,
            round4 (((max 1 (min 5 cf) : Int) : Rat)
              * (resolveEffectiveTrust s h).trust_weight)⟩ : KeywordVote)) ∧
    UniquePairKey (submitFeedback s h sc lk ti src al ul cf nt ts).store := by
  cases hex : s.events.find? (eventKeyMatches h lk) with
  | none =>
      have hall : ∀ b ∈ s.events, eventKeyMatches h lk b = false := by
        intro b hb
        have hnb := List.find?_eq_none.mp hex b hb
        cases hbk : eventKeyMatches h lk b
        · rfl
        · exact absurd hbk hnb
      simp only [submitFeedback, hex]
      refine ⟨?_, ?_, ?_⟩
      · rw [List.filter_append]
        rw [List.filter_eq_nil_iff.mpr (fun b hb => by rw [hall b hb]; simp)]
        rw [List.filter_cons_of_pos (by simp [eventKeyMatches])]
        rfl
      · exact votes_filter_regen s.votes s.nextEventId _
          (fun v hv => by
            rcases List.mem_map.mp hv with ⟨q0, hq0, rfl⟩
            rfl)
      · show ((s.events ++ [_]).Pairwise _)
        rw [List.pairwise_append]
        refine ⟨hu, List.pairwise_singleton _ _, ?_⟩
        intro a ha b hb
        have hb1 : b = (⟨s.nextEventId, ts, h, sc, lk, ti, src, al, ul,
            max 1 (min 5 cf), (resolveEffectiveTrust s h).trust_weight,
            round4 (((max 1 (min 5 cf) : Int) : Rat)
              * (resolveEffectiveTrust s h).trust_weight), nt⟩
            : FeedbackEvent) := by
          simpa using hb
        subst hb1
        have hka := hall a ha
        simp only [eventKeyMatches] at hka
        intro hcon
        rw [hcon.1, hcon.2] at hka
        simp at hka
  | some e0 =>
      have hpf : ∀ a : FeedbackEvent, eventKeyMatches h lk a = true →
          eventKeyMatches h lk
            ((⟨a.id, ts, h, sc, lk, ti, src, al, ul, max 1 (min 5 cf),
              (resolveEffectiveTrust s h).trust_weight,
              round4 (((max 1 (min 5 cf) : Int) : Rat)
                * (resolveEffectiveTrust s h).trust_weight), nt⟩
              : FeedbackEvent)) = true := by
        intro a _
        simp [eventKeyMatches]
      have hu' : s.events.Pairwise (fun a b =>
          ¬(eventKeyMatches h lk a = true ∧ eventKeyMatches h lk b = true)) := by
        refine hu.imp ?_
        intro a b hab hcon
        rcases hcon with ⟨ha, hb⟩
        simp only [eventKeyMatches, Bool.and_eq_true, beq_iff_eq] at ha hb
        exact hab ⟨ha.1.trans hb.1.symm, ha.2.trans hb.2.symm⟩
      simp only [submitFeedback, hex]
      refine ⟨?_, ?_, ?_⟩
      · exact filter_map_replace (eventKeyMatches h lk)
          (fun a => (⟨a.id, ts, h, sc, lk, ti, src, al, ul, max 1 (min 5 cf),
            (resolveEffectiveTrust s h).trust_weight,
            round4 (((max 1 (min 5 cf) : Int) : Rat)
              * (resolveEffectiveTrust s h).trust_weight), nt⟩
            : FeedbackEvent)) e0 hpf s.events hex hu'
      · exact votes_filter_regen s.votes e0.id _
          (fun v hv => by
            rcases List.mem_map.mp hv with ⟨q0, hq0, rfl⟩
            rfl)
      · apply filter_key_transfer
        · intro x
          by_cases hk : eventKeyMatches h lk x = true
          · have hk2 := hk
            simp only [eventKeyMatches, Bool.and_eq_true, beq_iff_eq] at hk2
            rw [if_pos hk]
            exact ⟨hk2.1.symm, hk2.2.symm⟩
          · rw [if_neg hk]
            exact ⟨rfl, rfl⟩
        · exact hu

/-- C4 at a concrete input (empty store, which satisfies the unique-index
invariant). -/
theorem C4_witness :
    UniquePairKey emptyStore ∧
    (((submitFeedback emptyStore "u" "A" "L" "맛집 소식" "src"
        Label.positive Label.negative 3 "n" "t").store.events.filter
        (eventKeyMatches "u" "L"))
      = [⟨(submitFeedback emptyStore "u" "A" "L" "맛집 소식" "src"
            Label.positive Label.negative 3 "n" "t").feedback_id,
          "t", "u", "A", "L", "맛집 소식", "src", Label.positive,
          Label.negative, max 1 (min 5 3),
          (resolveEffectiveTrust emptyStore "u").trust_weight,
          round4 (((max 1 (min 5 3) : Int) : Rat)
            * (resolveEffectiveTrust emptyStore "u").trust_weight), "n"⟩] ∧
    ((submitFeedback emptyStore "u" "A" "L" "맛집 소식" "src"
        Label.positive Label.negative 3 "n" "t").store.votes.filter
        (fun v => v.feedback_id
          == (submitFeedback emptyStore "u" "A" "L" "맛집 소식" "src"
              Label.positive Label.negative 3 "n" "t").feedback_id))
      = (extractKeywords "맛집 소식").enum.map (fun q =>
          (⟨emptyStore.nextVoteId + q.1,
            (submitFeedback emptyStore "u" "A" "L" "맛집 소식" "src"
              Label.positive Label.negative 3 "n" "t").feedback_id,
            "t", q.2, Label.positive, Label.negative,
            round4 (((max 1 (min 5 3) : Int) : Rat)
              * (resolveEffectiveTrust emptyStore "u").trust_weight)⟩
            : KeywordVote)) ∧
    UniquePairKey (submitFeedback emptyStore "u" "A" "L" "맛집 소식" "src"
        Label.positive Label.negative 3 "n" "t").store) :=
  ⟨by decide,
   C4_submit_feedback_upsert emptyStore "u" "A" "L" "맛집 소식" "src"
     Label.positive Label.negative 3 "n" "t" (by decide)⟩

theorem consensusWeightOf_max (wp wn wu : Rat) :
    wp ≤ consensusWeightOf wp wn wu ∧ wn ≤ consensusWeightOf wp wn wu ∧
    wu ≤ consensusWeightOf wp wn wu := by
  unfold consensusWeightOf bestLabel
  split_ifs <;> refine ⟨?_, ?_, ?_⟩ <;> (try simp_all) <;> linarith

theorem roundHalfEven_intCast (n : Int) : roundHalfEven ((n : Int) : Rat) = n := by
  simp only [roundHalfEven]
  rw [Int.floor_intCast, sub_self]
  rw [if_pos (by norm_num : (0 : Rat) < 1/2)]

theorem weightedSumFor_twoOne_pos :
    weightedSumFor twoOneStore "L" Label.positive = 2 := by
  simp [weightedSumFor, articleEvents, twoOneStore]

theorem weightedSumFor_twoOne_neg :
    weightedSumFor twoOneStore "L" Label.negative = 1 := by
  simp [weightedSumFor, articleEvents, twoOneStore]

theorem weightedSumFor_twoOne_neu :
    weightedSumFor twoOneStore "L" Label.neutral = 0 := by
  simp [weightedSumFor, articleEvents, twoOneStore]

theorem twoOne_consensus_ratio :
    (getArticleSummary twoOneStore "L").consensus_ratio = 6667/10000 := by
  have hlen : ¬ (articleEvents twoOneStore "L").length = 0 := by
    simp [articleEvents, twoOneStore]
  simp only [getArticleSummary]
  rw [if_neg hlen]
  simp only [weightedSumFor_twoOne_pos, weightedSumFor_twoOne_neg,
    weightedSumFor_twoOne_neu]
  have hb : bestLabel 2 1 0 = "positive" := by
    unfold bestLabel
    norm_num
  have hw : consensusWeightOf 2 1 0 = 2 := by
    unfold consensusWeightOf
    rw [hb]
    simp
  have hd : summaryWeightDenom twoOneStore "L" = 3 := by
    simp only [summaryWeightDenom, weightedSumFor_twoOne_pos,
      weightedSumFor_twoOne_neg, weightedSumFor_twoOne_neu]
    norm_num
  rw [hw, hd]
  show round4 (2/3) = 6667/10000
  unfold round4
  rw [show (2 : Rat)/3 * 10000 = 20000/3 from by norm_num]
  have hfl : Int.floor ((20000 : Rat)/3) = 6666 := by
    norm_num [Int.floor_eq_iff]
  have hre : roundHalfEven ((20000 : Rat)/3) = 6667 := by
    simp only [roundHalfEven]
    rw [hfl]
    rw [if_neg (by norm_num : ¬((20000 : Rat)/3 - (6666 : Int) < 1/2))]
    rw [if_pos (by norm_num : (1 : Rat)/2 < (20000 : Rat)/3 - (6666 : Int))]
    norm_num
  rw [hre]
  norm_num

/-- C6 counterexample: with weighted vote sums positive 2, negative 1,
neutral 0 (reachable from confidences 2 and 1 at trust weight 1.0), the
returned `consensus_ratio` is 0.6667 — the quotient rounded to four decimal
places — and not the exact quotient 2/3 the claim states. -/
theorem C6_counterexample :
    weightedSumFor twoOneStore "L" Label.positive = 2 ∧
    weightedSumFor twoOneStore "L" Label.negative = 1 ∧
    weightedSumFor twoOneStore "L" Label.neutral = 0 ∧
    (getArticleSummary twoOneStore "L").consensus_label = "positive" ∧
    (getArticleSummary twoOneStore "L").consensus_ratio = 6667/10000 ∧
    ¬ ((getArticleSummary twoOneStore "L").consensus_ratio
        = weightedSumFor twoOneStore "L" Label.positive
          / (weightedSumFor twoOneStore "L" Label.positive
            + weightedSumFor twoOneStore "L" Label.negative
            + weightedSumFor twoOneStore "L" Label.neutral)) := by
  have hlen : ¬ (articleEvents twoOneStore "L").length = 0 := by
    simp [articleEvents, twoOneStore]
  refine ⟨weightedSumFor_twoOne_pos, weightedSumFor_twoOne_neg,
    weightedSumFor_twoOne_neu, ?_, twoOne_consensus_ratio, ?_⟩
  · simp only [getArticleSummary]
    rw [if_neg hlen]
    simp only [weightedSumFor_twoOne_pos, weightedSumFor_twoOne_neg,
      weightedSumFor_twoOne_neu]
    unfold bestLabel
    norm_num
  · rw [twoOne_consensus_ratio, weightedSumFor_twoOne_pos,
      weightedSumFor_twoOne_neg, weightedSumFor_twoOne_neu]
    norm_num

/-- C6 (amended): for every article with at least one feedback vote,
`get_article_summary` returns as `consensus_label` the label with the
maximum weighted vote sum (ties resolved in the order positive, negative,
neutral) and as `consensus_ratio` that label's weighted sum divided by the
total weighted sum, rounded to four decimal places (the code's
`round(x, 4)`); in particular weighted sums {positive 6, negative 2,
neutral 0} yield consensus_label "positive" and consensus_ratio exactly
0.75. -/
theorem C6_consensus_arithmetic (s : Store) (link : String)
    (hne : ¬ articleEvents s link = []) :
    (getArticleSummary s link).consensus_label
      = bestLabel (weightedSumFor s link Label.positive)
          (weightedSumFor s link Label.negative)
          (weightedSumFor s link Label.neutral) ∧
    weightedSumFor s link Label.positive
      ≤ consensusWeightOf (weightedSumFor s link Label.positive)
          (weightedSumFor s link Label.negative)
          (weightedSumFor s link Label.neutral) ∧
    weightedSumFor s link Label.negative
      ≤ consensusWeightOf (weightedSumFor s link Label.positive)
          (weightedSumFor s link Label.negative)
          (weightedSumFor s link Label.neutral) ∧
    weightedSumFor s link Label.neutral
      ≤ consensusWeightOf (weightedSumFor s link Label.positive)
          (weightedSumFor s link Label.negative)
          (weightedSumFor s link Label.neutral) ∧
    (getArticleSummary s link).consensus_ratio
      = round4 (consensusWeightOf (weightedSumFor s link Label.positive)
          (weightedSumFor s link Label.negative)
          (weightedSumFor s link Label.neutral)
          / summaryWeightDenom s link) ∧
    (¬ (weightedSumFor s link Label.positive
        + weightedSumFor s link Label.negative
        + weightedSumFor s link Label.neutral) = 0 →
      summaryWeightDenom s link
        = weightedSumFor s link Label.positive
          + weightedSumFor s link Label.negative
          + weightedSumFor s link Label.neutral) ∧
    weightedSumFor sixTwoStore "L" Label.positive = 6 ∧
    weightedSumFor sixTwoStore "L" Label.negative = 2 ∧
    weightedSumFor sixTwoStore "L" Label.neutral = 0 ∧
    (getArticleSummary sixTwoStore "L").consensus_label = "positive" ∧
    (getArticleSummary sixTwoStore "L").consensus_ratio = 3/4 := by
  have hlen : ¬ (articleEvents s link).length = 0 := by
    intro h0
    exact hne (List.length_eq_zero.mp h0)
  have hlen6 : ¬ (articleEvents sixTwoStore "L").length = 0 := by
    simp [articleEvents, sixTwoStore]
  have h1 : weightedSumFor sixTwoStore "L" Label.positive = 6 := by
    simp [weightedSumFor, articleEvents, sixTwoStore]
  have h2 : weightedSumFor sixTwoStore "L" Label.negative = 2 := by
    simp [weightedSumFor, articleEvents, sixTwoStore]
  have h3 : weightedSumFor sixTwoStore "L" Label.neutral = 0 := by
    simp [weightedSumFor, articleEvents, sixTwoStore]
  refine ⟨?_, (consensusWeightOf_max _ _ _).1,
    (consensusWeightOf_max _ _ _).2.1, (consensusWeightOf_max _ _ _).2.2,
    ?_, ?_, h1, h2, h3, ?_, ?_⟩
  · simp only [getArticleSummary]
    rw [if_neg hlen]
  · simp only [getArticleSummary]
    rw [if_neg hlen]
  · intro h0
    simp only [summaryWeightDenom]
    rw [if_neg h0]
  · simp only [getArticleSummary]
    rw [if_neg hlen6]
    simp only [h1, h2, h3]
    unfold bestLabel
    norm_num
  · simp only [getArticleSummary]
    rw [if_neg hlen6]
    simp only [h1, h2, h3]
    have hb : bestLabel 6 2 0 = "positive" := by
      unfold bestLabel
      norm_num
    have hw : consensusWeightOf 6 2 0 = 6 := by
      unfold consensusWeightOf
      rw [hb]
      simp
    have hd : summaryWeightDenom sixTwoStore "L" = 8 := by
      simp only [summaryWeightDenom, h1, h2, h3]
      norm_num
    rw [hw, hd]
    show round4 (6/8) = 3/4
    unfold round4
    rw [show (6 : Rat)/8 * 10000 = ((7500 : Int) : Rat) from by norm_num]
    rw [roundHalfEven_intCast]
    norm_num

/-- C6 (amended) at a concrete input (the store with weighted sums
{6, 2, 0}). -/
theorem C6_witness :
    ¬ articleEvents sixTwoStore "L" = [] ∧
    (getArticleSummary sixTwoStore "L").consensus_label
      = bestLabel (weightedSumFor sixTwoStore "L" Label.positive)
          (weightedSumFor sixTwoStore "L" Label.negative)
          (weightedSumFor sixTwoStore "L" Label.neutral) ∧
    (getArticleSummary sixTwoStore "L").consensus_ratio
      = round4 (consensusWeightOf (weightedSumFor sixTwoStore "L" Label.positive)
          (weightedSumFor sixTwoStore "L" Label.negative)
          (weightedSumFor sixTwoStore "L" Label.neutral)
          / summaryWeightDenom sixTwoStore "L") ∧
    (getArticleSummary sixTwoStore "L").consensus_label = "positive" ∧
    (getArticleSummary sixTwoStore "L").consensus_ratio = 3/4 := by
  have hne : ¬ articleEvents sixTwoStore "L" = [] := by
    simp [articleEvents, sixTwoStore]
  have hmain := C6_consensus_arithmetic sixTwoStore "L" hne
  exact ⟨hne, hmain.1, hmain.2.2.2.2.1, hmain.2.2.2.2.2.2.2.2.2.1,
    hmain.2.2.2.2.2.2.2.2.2.2⟩

end SignalWatch
